import Mathlib

/-!
Verification of the aquila asset-and-compute gateway against its
natural-language specification.  The Rust source is shallowly embedded:
pure functions become Lean functions, stateful storage calls become
explicit state passing through a `StoragePort` record, fallible code
returns `Except`.  External crates (sha2, hex, serde_json, jsonwebtoken,
the AWS SDK, the OpenDAL operator) are modelled as function parameters
or as an in-memory map standing for the external storage medium.
-/

namespace Aquila

/-- A byte sequence (the payload of a blob), `bytes::Bytes` in the source. -/
abbrev Bytes := List Nat

/-! ## Scope constants (crates/aquila_core/src/constants.rs, mod scopes) -/

def READ : String := "read"

def WRITE : String := "write"

def ADMIN : String := "admin"

def ASSET_UPLOAD : String := "asset:upload"

def ASSET_DOWNLOAD : String := "asset:download"

def MANIFEST_PUBLISH : String := "manifest:publish"

def MANIFEST_READ : String := "manifest:download"

def JOB_RUN : String := "job:run"

def JOB_ATTACH : String := "job:attach"

/-! ## Error taxonomies (crates/aquila_core/src/error.rs)

The payloads of `Io` and `Serialization` are the display strings of the
underlying external error values. -/

inductive StorageError where
  | Io (msg : String)
  | Serialization (msg : String)
  | NotFound (msg : String)
  | InvalidRequest (msg : String)
  | System (msg : String)
  | Unsupported (msg : String)
deriving DecidableEq, Repr

/-- The `thiserror` display strings of `StorageError`. -/
def StorageError.display : StorageError → String
  | .Io m => "IO error: " ++ m
  | .Serialization m => "Serialization error: " ++ m
  | .NotFound m => "Resource not found: " ++ m
  | .InvalidRequest m => "Invalid request: " ++ m
  | .System m => "Storage system failure: " ++ m
  | .Unsupported m => "Feature not supported: " ++ m

inductive AuthError where
  | Invalid
  | Expired
  | Missing
  | Forbidden (msg : String)
  | System (msg : String)
  | Unsupported (msg : String)
deriving DecidableEq, Repr

/-- The `thiserror` display strings of `AuthError`. -/
def AuthError.display : AuthError → String
  | .Invalid => "Unauthorized: Credentials invalid"
  | .Expired => "Unauthorized: Credentials expired"
  | .Missing => "Unauthorized: Credentials missing"
  | .Forbidden m => "Insufficient permissions: " ++ m
  | .System m => "Auth system failure: " ++ m
  | .Unsupported m => "Feature not supported: " ++ m

inductive ComputeError where
  | InvalidRequest (msg : String)
  | NotFound (msg : String)
  | System (msg : String)
  | Unsupported (msg : String)
deriving DecidableEq, Repr

/-- The `thiserror` display strings of `ComputeError`. -/
def ComputeError.display : ComputeError → String
  | .InvalidRequest m => "Invalid request: " ++ m
  | .NotFound m => "Job " ++ m ++ " not found"
  | .System m => "Compute system failure: " ++ m
  | .Unsupported m => "Feature not supported: " ++ m

/-! ## ApiError (crates/aquila_server/src/api.rs)

`ApiError` wraps `anyhow::Error`; `into_response` downcasts in order to
`StorageError`, `ComputeError`, `AuthError`, with a generic 500 fallback.
We model the wrapped error as a sum; `other` is any non-taxonomy error
(e.g. a `serde_json::Error` raised while re-reading a manifest). -/

inductive ApiError where
  | storage (e : StorageError)
  | compute (e : ComputeError)
  | auth (e : AuthError)
  | other (msg : String)
deriving DecidableEq, Repr

/-- `impl IntoResponse for ApiError` (api.rs lines 31-88), as a pair of
HTTP status code and body string. -/
def ApiError.into_response : ApiError → Nat × String
  | .storage e =>
    match e with
    | .NotFound _ => (404, e.display)
    | .Unsupported _ => (501, e.display)
    | _ => (500, "Storage Error")
  | .compute e =>
    match e with
    | .NotFound _ => (404, e.display)
    | .Unsupported _ => (501, e.display)
    | .InvalidRequest _ => (400, "Invalid Request: " ++ e.display)
    | .System _ => (500, "Compute Error")
  | .auth e =>
    match e with
    | .Invalid | .Expired | .Missing => (401, e.display)
    | .Forbidden _ => (403, e.display)
    | .Unsupported _ => (501, e.display)
    | .System _ => (500, "Auth Error")
  | .other _ => (500, "Internal Server Error")

/-! ## Identity and token service (crates/aquila_core/src/traits.rs,
crates/aquila_server/src/jwt.rs) -/

/-- `User` (traits.rs): a resolved identity. -/
structure User where
  id : String
  scopes : List String
deriving DecidableEq, Repr

/-- The JWT claims record `Claims { sub, exp, scopes }`.
Modelled from the spec: the crate file `aquila_core/src/claims.rs` is not
under src/; the spec describes the signed token as carrying
`{ sub, exp (unix seconds), scopes }`, and jwt.rs reads exactly the
fields `sub`, `exp` and `scopes` from it. -/
structure Claims where
  sub : String
  exp : Nat
  scopes : List String
deriving DecidableEq, Repr

/-- The error kind reported by the external `jsonwebtoken::decode`:
either an expired signature or any other decode failure. -/
inductive JwtDecodeErrorKind where
  | expiredSignature
  | otherError (msg : String)
deriving DecidableEq, Repr

/-- `JwtService::verify` (jwt.rs lines 80-94), the variant that
distinguishes `Expired` from `Invalid`.  The external
`jsonwebtoken::decode` (signature and expiry validation) is the
parameter `decode`. -/
def jwt_verify (decode : String → Except JwtDecodeErrorKind Claims)
    (token : String) : Except AuthError User :=
  match decode token with
  | .error .expiredSignature => .error AuthError.Expired
  | .error _ => .error AuthError.Invalid
  | .ok token_data => .ok { id := token_data.sub, scopes := token_data.scopes }

/-- `JWTServiceAuthProvider::verify` (auth.rs lines 152-161): empty
credential fails `Missing`; otherwise try the token service; on success
return its identity; on `Expired` propagate `Expired`; on any other
token-service failure delegate to the wrapped provider. -/
def layered_verify (decode : String → Except JwtDecodeErrorKind Claims)
    (provider : String → Except AuthError User)
    (token : String) : Except AuthError User :=
  if token = "" then
    .error AuthError.Missing
  else
    match jwt_verify decode token with
    | .ok user => .ok user
    | .error AuthError.Expired => .error AuthError.Expired
    | .error _ => provider token

/-! ## Scope gate (crates/aquila_server/src/auth.rs, ScopedUser) -/

/-- The scope check of `ScopedUser::from_request_parts` (auth.rs lines
85-98), applied to the identity resolved by authentication (and the
optional permission-elevation step): pass iff some held scope equals
`ADMIN` or the required scope, else fail `Forbidden`. -/
def scope_gate (required : String) (user : User) : Except AuthError User :=
  if user.scopes.any (fun s => s == ADMIN || s == required) then
    .ok user
  else
    .error (AuthError.Forbidden
      ("Missing permission: \x27" ++ required ++ "\x27 scope required."))

/-! ## Token issuance (crates/aquila_server/src/api.rs, issue_token) -/

/-- The JSON response body of `POST /auth/token`. -/
structure TokenResp where
  token : String
  expires_in : Nat
deriving DecidableEq, Repr

/-- `issue_token` (api.rs lines 278-306).  `mint` is the registered JWT
backend's mint operation (`state.jwt().mint`); the `ScopedUser<WriteScope>`
extractor has already run, `user` is the caller's identity.
`duration_seconds` and `scopesOpt` are the optional request fields.
The non-admin caller may not request a scope contained in
`[ADMIN, WRITE]`; the source's for-loop returns on the first privileged
scope, i.e. `List.find?`. -/
def issue_token (mint : String → List String → Nat → Except AuthError String)
    (user : User) (subject : String)
    (duration_seconds : Option Nat) (scopesOpt : Option (List String)) :
    Except ApiError TokenResp :=
  let scopes := scopesOpt.getD [READ]
  let is_admin := user.scopes.any (fun s => s == ADMIN)
  let privileged_scopes := [ADMIN, WRITE]
  match if is_admin then none
        else scopes.find? (fun s => privileged_scopes.contains s) with
  | some scope =>
    .error (ApiError.auth (AuthError.Forbidden
      ("Insufficient permissions to mint \x27" ++ scope ++ "\x27 token.")))
  | none =>
    let duration := duration_seconds.getD 31536000
    match mint subject scopes duration with
    | .ok token => .ok { token := token, expires_in := duration }
    | .error e => .error (ApiError.auth e)

/-! ## Storage port (crates/aquila_core/src/traits.rs, StorageBackend)

Each operation takes and returns an explicit backend state `St`; the
result component carries the `Result` of the Rust call.  `read_file`
does not change backend state in any of the source backends, but is
given the uniform shape for the reviewer's convenience; the in-memory
instantiations below keep it state-preserving. -/

structure StoragePort (St : Type) where
  write_blob : St → String → Bytes → Except StorageError Bool × St
  write_stream : St → String → Bytes → Option Nat → Except StorageError Bool × St
  write_manifest : St → String → Bytes → Except StorageError Unit × St
  read_file : St → String → Except StorageError Bytes × St
  get_download_url : St → String → Except StorageError (Option String) × St
  delete_file : St → String → Except StorageError Unit × St

/-- `StorageBackend::get_manifest_path` (traits.rs lines 64-66), the
defaulted trait method shared by all backends. -/
def get_manifest_path (version : String) : String :=
  "manifests/" ++ version

/-! ### In-memory instantiation of the concrete blob stores

`FileSystemStorage` (crates/aquila_fs/src/lib.rs) and `OpendalStorage`
(crates/aquila_opendal/src/lib.rs) store blobs in an external medium
(the file system / an OpenDAL operator), which we model as an
association list from path to bytes.  A write prepends; a lookup takes
the first match; delete removes every entry at the path. -/

abbrev MemSt := List (String × Bytes)

def memLookup : MemSt → String → Option Bytes
  | [], _ => none
  | (k, v) :: rest, p => if k = p then some v else memLookup rest p

def memErase (σ : MemSt) (p : String) : MemSt :=
  σ.filter (fun kv => kv.1 ≠ p)

/-- The concrete blob-store semantics shared by `FileSystemStorage` and
`OpendalStorage`:
* `write_blob` (fs lib.rs lines 59-66): no-op returning `false` when the
  path exists, else write and return `true`;
* `write_stream` (opendal lib.rs): `false` short-circuit when the path
  exists, else consume the whole stream into the path and return `true`;
* `read_file`: bytes, or `NotFound` with the path as message;
* `get_download_url`: the defaulted trait method returning `none`
  (neither backend overrides it);
* `delete_file` (opendal lib.rs): remove the path. -/
def memStore : StoragePort MemSt where
  write_blob := fun σ hash data =>
    if (memLookup σ hash).isSome then (.ok false, σ)
    else (.ok true, (hash, data) :: σ)
  write_stream := fun σ hash data _content_length =>
    if (memLookup σ hash).isSome then (.ok false, σ)
    else (.ok true, (hash, data) :: σ)
  write_manifest := fun σ version data =>
    (.ok (), (get_manifest_path version, data) :: σ)
  read_file := fun σ path =>
    match memLookup σ path with
    | some data => (.ok data, σ)
    | none => (.error (StorageError.NotFound path), σ)
  get_download_url := fun σ _path => (.ok none, σ)
  delete_file := fun σ path => (.ok (), memErase σ path)

/-- An instrumented port whose state counts the `get_download_url`
invocations: every probe increments the counter, every other operation
leaves it unchanged.  `read_file` always succeeds with an empty blob and
the probe always reports no redirect URL (as the defaulted trait method
does). -/
def probeCountPort : StoragePort Nat where
  write_blob := fun n _ _ => (.ok true, n)
  write_stream := fun n _ _ _ => (.ok true, n)
  write_manifest := fun n _ _ => (.ok (), n)
  read_file := fun n _ => (.ok [], n)
  get_download_url := fun n _ => (.ok none, n + 1)
  delete_file := fun n _ => (.ok (), n)

/-! ## Asset handlers (crates/aquila_server/src/api.rs) -/

/-- The body of a `GET /assets/{hash}` response: a 307 redirect or the
stored bytes. -/
inductive DownloadResp where
  | redirect (url : String)
  | payload (data : Bytes)
deriving DecidableEq, Repr

/-- `download_asset` (api.rs lines 91-111): read the blob, then probe
`get_download_url`; on `some url` respond 307; on `none` probe a second
time (the source repeats the call), responding 307 to that URL when
present and the blob bytes otherwise.  Errors propagate via `?`. -/
def download_asset {St : Type} (port : StoragePort St) (σ : St)
    (hash : String) : Except ApiError DownloadResp × St :=
  match port.read_file σ hash with
  | (.error e, σ1) => (.error (ApiError.storage e), σ1)
  | (.ok data, σ1) =>
    match port.get_download_url σ1 hash with
    | (.error e, σ2) => (.error (ApiError.storage e), σ2)
    | (.ok (some url), σ2) => (.ok (DownloadResp.redirect url), σ2)
    | (.ok none, σ2) =>
      match port.get_download_url σ2 hash with
      | (.error e, σ3) => (.error (ApiError.storage e), σ3)
      | (.ok (some url), σ3) => (.ok (DownloadResp.redirect url), σ3)
      | (.ok none, σ3) => (.ok (DownloadResp.payload data), σ3)

/-- `upload_asset` (api.rs lines 115-131): hash the full body, write the
blob at the hex digest, respond with the digest; 201 when the write
created a new blob, 200 when it already existed.  `hexhash` is the
external sha2 + hex pipeline (`hex::encode(Sha256::digest(body))`). -/
def upload_asset {St : Type} (port : StoragePort St)
    (hexhash : Bytes → String) (σ : St) (body : Bytes) :
    Except ApiError (Nat × String) × St :=
  let hash := hexhash body
  match port.write_blob σ hash body with
  | (.error e, σ1) => (.error (ApiError.storage e), σ1)
  | (.ok created, σ1) =>
    (.ok (if created then 201 else 200, hash), σ1)

/-- `upload_asset_stream` (api.rs lines 134-195): stream the body into
the storage port while hashing it.  When the port reports a new write,
compare the computed digest with the path digest; on mismatch delete the
just-written blob (best effort; the delete result is dropped) and fail
with a storage `System` integrity error.  Otherwise 201 for a new write
and 200 for a pre-existing blob.  When the write short-circuits
(`created = false`) the hasher may have seen nothing; no comparison is
performed, so `hexhash` is only ever applied on the `created = true`
path, where the backend consumed the entire body. -/
def upload_asset_stream {St : Type} (port : StoragePort St)
    (hexhash : Bytes → String) (σ : St) (hash : String) (body : Bytes)
    (content_length : Option Nat) :
    Except ApiError (Nat × String) × St :=
  match port.write_stream σ hash body content_length with
  | (.error e, σ1) => (.error (ApiError.storage e), σ1)
  | (.ok created, σ1) =>
    if created then
      let calculated_hash := hexhash body
      if calculated_hash ≠ hash then
        let σ2 := (port.delete_file σ1 hash).2
        (.error (ApiError.storage (StorageError.System
          ("Integrity check failed. Expected " ++ hash ++ ", got " ++
            calculated_hash))), σ2)
      else
        (.ok (201, hash), σ1)
    else
      (.ok (200, hash), σ1)

/-! ## Manifest handlers (crates/aquila_server/src/api.rs) -/

/-- An entry of the manifest's asset map.
Modelled from the spec: the crate file `aquila_core/src/asset.rs` is not
under src/; the spec gives `AssetInfo{ hash, size, mime_type? }`. -/
structure AssetInfo where
  hash : String
  size : Nat
  mime_type : Option String
deriving DecidableEq, Repr

/-- The versioned manifest.
Modelled from the spec: the crate file `aquila_core/src/asset.rs` is not
under src/; the spec describes a `version` tag, a map from logical paths
to `AssetInfo`, and an optional metadata map.  Only the `version` field
is read by the handlers under src/. -/
structure AssetManifest where
  version : String
  assets : List (String × AssetInfo)
  metadata : Option (List (String × String))
deriving DecidableEq, Repr

/-- `default_true` (api.rs lines 221-223), the serde default of the
`latest` query parameter of `POST /manifest`. -/
def default_true : Bool := true

/-- `publish_manifest` (api.rs lines 226-244): serialize the manifest
(pretty-printed, via the external serde_json — the parameter `ser`),
write it to `manifests/<version>`, and when `latest` is true write the
same bytes to `manifests/latest`; respond 201.  The port computes the
manifest path internally (`get_manifest_path`). -/
def publish_manifest {St : Type} (ser : AssetManifest → Bytes)
    (port : StoragePort St) (σ : St) (latest : Bool)
    (manifest : AssetManifest) : Except ApiError Nat × St :=
  let data := ser manifest
  match port.write_manifest σ manifest.version data with
  | (.error e, σ1) => (.error (ApiError.storage e), σ1)
  | (.ok _, σ1) =>
    if latest then
      match port.write_manifest σ1 "latest" data with
      | (.error e, σ2) => (.error (ApiError.storage e), σ2)
      | (.ok _, σ2) => (.ok 201, σ2)
    else
      (.ok 201, σ1)

/-- `get_manifest` (api.rs lines 198-213): read
`manifests/<version>`, validate the bytes as an `AssetManifest`
(external serde_json — `parseManifest`), then re-emit the parsed JSON
value (external serde_json — `parseValue`, into an abstract value type
`V`).  A parse failure surfaces as the generic 500 `ApiError.other`. -/
def get_manifest {St V : Type}
    (parseManifest : Bytes → Except String AssetManifest)
    (parseValue : Bytes → Except String V)
    (port : StoragePort St) (σ : St) (version : String) :
    Except ApiError V × St :=
  let path := get_manifest_path version
  match port.read_file σ path with
  | (.error e, σ1) => (.error (ApiError.storage e), σ1)
  | (.ok data, σ1) =>
    match parseManifest data with
    | .error msg => (.error (ApiError.other msg), σ1)
    | .ok _ =>
      match parseValue data with
      | .error msg => (.error (ApiError.other msg), σ1)
      | .ok v => (.ok v, σ1)

/-! ## Compute log records (crates/aquila_core/src/job.rs) -/

inductive LogSource where
  | Stdout
  | Stderr
  | Console
deriving DecidableEq, Repr

structure LogOutput where
  source : LogSource
  timestamp : Option String
  message : String
deriving DecidableEq, Repr

/-! ## AWS Batch log-tail state machine
(crates/aquila_compute_aws/src/lib.rs, `AwsBatchBackend::attach`)

The stream is `stream::unfold(state, closure)`; one pull of the stream
runs the closure's `loop` until it returns.  We embed one loop iteration
as `loopBody` (total) and a pull as fuel-bounded iteration `attachStep`;
a `sleep` + `continue` in the source is one `LoopOutcome.again` step.
The AWS SDK calls are supplied by an `AwsEnv`. -/

/-- The AWS Batch job statuses used by the machine. -/
inductive AwsJobStatus where
  | submitted
  | pending
  | runnable
  | starting
  | running
  | succeeded
  | failed
deriving DecidableEq, Repr

structure ContainerDetail where
  log_stream_name : Option String
deriving DecidableEq, Repr

structure JobDetail where
  status : Option AwsJobStatus
  container : Option ContainerDetail
deriving DecidableEq, Repr

structure DescribeResp where
  jobs : List JobDetail
deriving DecidableEq, Repr

/-- The error sub-kind of a CloudWatch `GetLogEvents` service error. -/
inductive LogsServiceErrKind where
  | serviceUnavailable
  | resourceNotFound
  | invalidParameter
  | otherKind
deriving DecidableEq, Repr

/-- An `SdkError` as the machine discriminates it: the variant, the
service-error sub-kind with the raw HTTP status where applicable, and
the display string used for `ComputeError::System(e.to_string())`. -/
inductive SdkErrKind where
  | timeoutError
  | dispatchFailure
  | serviceError (sub : LogsServiceErrKind) (httpStatus : Nat)
  | otherVariant
deriving DecidableEq, Repr

structure SdkErr where
  kind : SdkErrKind
  msg : String
deriving DecidableEq, Repr

/-- `should_retry` (aws lib.rs lines 362-373): dispatch/timeout and
service-unavailable/resource-not-found errors are transient;
invalid-parameter errors are fatal; other service errors retry iff the
raw status is a 5xx; everything else is fatal. -/
def should_retry (err : SdkErr) : Bool :=
  match err.kind with
  | .dispatchFailure | .timeoutError => true
  | .serviceError sub st =>
    match sub with
    | .serviceUnavailable => true
    | .resourceNotFound => true
    | .invalidParameter => false
    | .otherKind => 500 ≤ st && st < 600
  | .otherVariant => false

/-- The per-attach state (aws lib.rs lines 375-384, minus the shared SDK
client handles). -/
structure LogStreamState where
  job_id : String
  log_stream_name : Option String
  next_token : Option String
  buffer : List LogOutput
  finished : Bool
  error_count : Nat
deriving DecidableEq, Repr

/-- The backend environment: `describe_jobs` on the job id,
`get_log_events` on (log stream name, next token), and the external
chrono RFC3339 formatter for event timestamps (milliseconds). -/
structure LogEvent where
  timestamp : Option Int
  message : Option String
deriving DecidableEq, Repr

structure LogPage where
  events : List LogEvent
  next_forward_token : Option String
deriving DecidableEq, Repr

structure AwsEnv where
  describe_jobs : String → Except SdkErr DescribeResp
  get_log_events : String → Option String → Except SdkErr LogPage
  rfc3339 : Int → String

instance {ε α : Type} [DecidableEq ε] [DecidableEq α] :
    DecidableEq (Except ε α) := fun a b =>
  match a, b with
  | .error x, .error y =>
    if h : x = y then .isTrue (by rw [h])
    else .isFalse (fun hc => h (by injection hc))
  | .ok x, .ok y =>
    if h : x = y then .isTrue (by rw [h])
    else .isFalse (fun hc => h (by injection hc))
  | .error _, .ok _ => .isFalse (fun hc => by injection hc)
  | .ok _, .error _ => .isFalse (fun hc => by injection hc)

/-- The outcome of one iteration of the unfold closure's `loop`:
`emit` is `return Some((item, state))`, `halt` is `return None`,
`again` is `sleep(2s); continue`. -/
inductive LoopOutcome where
  | emit (item : Except ComputeError LogOutput) (st : LogStreamState)
  | halt
  | again (st : LogStreamState)
deriving DecidableEq, Repr

/-- Applies a successful `describe_jobs` response to the state
(aws lib.rs lines 241-257 and the empty-page re-check at lines 298-319):
reset `error_count` when `resetErrors`, mark `finished` on a terminal
job status, and record the container's log stream name when
`withStream`. -/
def applyDescribe (resetErrors withStream : Bool) (resp : DescribeResp)
    (st : LogStreamState) : LogStreamState :=
  let st1 := if resetErrors then { st with error_count := 0 } else st
  match resp.jobs.head? with
  | none => st1
  | some job =>
    let st2 :=
      match job.status with
      | some .succeeded | some .failed => { st1 with finished := true }
      | _ => st1
    if withStream then
      match job.container with
      | some container =>
        match container.log_stream_name with
        | some ls => { st2 with log_stream_name := some ls }
        | none => st2
      | none => st2
    else st2

/-- The `if let Some(ref log_stream)` fetch block (aws lib.rs lines
279-354): fetch the next page of log events; on success reset the error
count; an empty page re-checks the job status (describe errors ignored)
and halts when finished, else sleeps and loops; a non-empty page records
the forward token and enqueues every event as a Stdout `LogOutput`; on
fetch errors consult `should_retry`. -/
def fetchPart (env : AwsEnv) (st : LogStreamState) : LoopOutcome :=
  match st.log_stream_name with
  | none => .again st
  | some log_stream =>
    match env.get_log_events log_stream st.next_token with
    | .ok output =>
      let st1 := { st with error_count := 0 }
      if output.events = [] then
        let st2 :=
          if st1.finished then st1
          else
            match env.describe_jobs st1.job_id with
            | .ok resp => applyDescribe false false resp st1
            | .error _ => st1
        if st2.finished then .halt else .again st2
      else
        .again { st1 with
          next_token := output.next_forward_token,
          buffer := st1.buffer ++ output.events.map (fun event =>
            { source := LogSource.Stdout,
              timestamp := event.timestamp.map env.rfc3339,
              message := (event.message.getD "") ++ "\n" }) }
    | .error e =>
      if should_retry e then
        .again { st with error_count := st.error_count + 1 }
      else
        .emit (.error (ComputeError.System e.msg)) st

/-- One iteration of the unfold closure's `loop` (aws lib.rs lines
223-355): past the retry budget emit the terminal system error; else pop
the buffer; else stop when finished; else resolve the log stream name by
describing the job (transient describe errors sleep and retry, others
emit) and fall through into the fetch block. -/
def loopBody (env : AwsEnv) (st : LogStreamState) : LoopOutcome :=
  if st.error_count > 15 then
    .emit (.error (ComputeError.System "Too many transient errors")) st
  else
    match st.buffer with
    | log :: rest => .emit (.ok log) { st with buffer := rest }
    | [] =>
      if st.finished then .halt
      else
        match st.log_stream_name with
        | some _ => fetchPart env st
        | none =>
          match env.describe_jobs st.job_id with
          | .ok resp =>
            let st1 := applyDescribe true true resp st
            match st1.log_stream_name with
            | some _ => fetchPart env st1
            | none => if st1.finished then .halt else .again st1
          | .error e =>
            match e.kind with
            | .timeoutError | .dispatchFailure =>
              .again { st with error_count := st.error_count + 1 }
            | _ => .emit (.error (ComputeError.System e.msg)) st

/-- The result of pulling one record from the attach stream, with a fuel
bound on the number of loop iterations.  `yield item st` is the unfold
returning `Some((item, st))` — the stream continues from `st`; `stop`
is `None` (the stream has ended). -/
inductive StepResult where
  | yield (item : Except ComputeError LogOutput) (st : LogStreamState)
  | stop
  | outOfFuel (st : LogStreamState)
deriving DecidableEq, Repr

/-- One pull of the attach stream: iterate `loopBody` until it emits,
halts, or the fuel runs out. -/
def attachStep (env : AwsEnv) : Nat → LogStreamState → StepResult
  | 0, st => .outOfFuel st
  | fuel + 1, st =>
    match loopBody env st with
    | .emit item st1 => .yield item st1
    | .halt => .stop
    | .again st1 => attachStep env fuel st1

/-! ## Helper lemmas -/

theorem memLookup_memErase (σ : MemSt) (p : String) :
    memLookup (memErase σ p) p = none := by
  induction σ with
  | nil => rfl
  | cons kv rest ih =>
    obtain ⟨k, v⟩ := kv
    by_cases h : k = p
    · simpa [memErase, List.filter_cons, h] using ih
    · simpa [memErase, List.filter_cons, h, memLookup] using ih

/-! ## Claim theorems -/

/-- C7: the spec claims `StorageError::InvalidRequest` maps to HTTP 400,
while `NotFound` maps to 404, `Unsupported` to 501 and
`Io`/`Serialization`/`System` to 500.  Evaluating `into_response` shows
the `NotFound`/`Unsupported`/500 mappings hold, but `InvalidRequest`
falls into the wildcard arm of the `StorageError` match and is returned
as 500 — contradicting both the claim and the error type's own doc
comment ("Maps to HTTP 400 Bad Request"). -/
theorem storage_error_status_map (msg : String) :
    (ApiError.storage (StorageError.NotFound msg)).into_response.1 = 404
    ∧ (ApiError.storage (StorageError.Unsupported msg)).into_response.1 = 501
    ∧ (ApiError.storage (StorageError.InvalidRequest msg)).into_response.1 = 500
    ∧ (ApiError.storage (StorageError.Io msg)).into_response.1 = 500
    ∧ (ApiError.storage (StorageError.Serialization msg)).into_response.1 = 500
    ∧ (ApiError.storage (StorageError.System msg)).into_response.1 = 500 :=
  ⟨rfl, rfl, rfl, rfl, rfl, rfl⟩

/-- C2: the scope gate admits the resolved identity iff its scope set
contains the required scope or the wildcard `admin` scope; otherwise the
request fails with a `Forbidden` auth error mapping to HTTP 403. -/
theorem scope_gate_admits_iff (required : String) (user : User) :
    (scope_gate required user = Except.ok user ↔
      ADMIN ∈ user.scopes ∨ required ∈ user.scopes)
    ∧ (ADMIN ∉ user.scopes → required ∉ user.scopes →
        scope_gate required user = Except.error (AuthError.Forbidden
          ("Missing permission: \x27" ++ required ++ "\x27 scope required."))
        ∧ (ApiError.auth (AuthError.Forbidden
            ("Missing permission: \x27" ++ required ++
              "\x27 scope required."))).into_response.1 = 403) := by
  have hcond : (user.scopes.any (fun s => s == ADMIN || s == required) = true)
      ↔ (ADMIN ∈ user.scopes ∨ required ∈ user.scopes) := by
    rw [List.any_eq_true]
    constructor
    · rintro ⟨x, hx, hor⟩
      rw [Bool.or_eq_true] at hor
      rcases hor with h1 | h1
      · exact Or.inl (by rwa [eq_of_beq h1] at hx)
      · exact Or.inr (by rwa [eq_of_beq h1] at hx)
    · rintro (h | h)
      · exact ⟨ADMIN, h, by simp⟩
      · exact ⟨required, h, by simp⟩
  constructor
  · by_cases hb : user.scopes.any (fun s => s == ADMIN || s == required) = true
    · unfold scope_gate
      rw [if_pos hb]
      exact ⟨fun _ => hcond.mp hb, fun _ => rfl⟩
    · unfold scope_gate
      rw [if_neg hb]
      constructor
      · intro hcontra
        exact absurd hcontra (by simp)
      · intro hmem
        exact absurd (hcond.mpr hmem) hb
  · intro hA hr
    have hb : ¬(user.scopes.any (fun s => s == ADMIN || s == required) = true) := by
      intro hb
      rcases hcond.mp hb with h | h
      · exact hA h
      · exact hr h
    unfold scope_gate
    rw [if_neg hb]
    exact ⟨rfl, rfl⟩

/-- Witness for C2 at a concrete identity lacking both scopes. -/
theorem scope_gate_admits_iff_witness :
    (scope_gate "asset:upload" { id := "u", scopes := ["read"] } =
      Except.ok { id := "u", scopes := ["read"] } ↔
      ADMIN ∈ ["read"] ∨ "asset:upload" ∈ ["read"])
    ∧ (scope_gate "asset:upload" { id := "u", scopes := ["read"] } =
        Except.error (AuthError.Forbidden
          "Missing permission: \x27asset:upload\x27 scope required.")
      ∧ (ApiError.auth (AuthError.Forbidden
          "Missing permission: \x27asset:upload\x27 scope required.")).into_response.1
        = 403) := by
  refine ⟨(scope_gate_admits_iff "asset:upload" { id := "u", scopes := ["read"] }).1, ?_⟩
  have h2 := (scope_gate_admits_iff "asset:upload"
    { id := "u", scopes := ["read"] }).2 (by decide) (by decide)
  simpa using h2

/-- C3: layered-auth verify — an empty credential fails `Missing`; a
token-service success is returned as-is; a token-service `Expired` is
propagated without invoking the delegated auth port (the result does not
depend on the delegate); any other token-service failure yields exactly
the delegate's verdict for the same credential. -/
theorem layered_verify_cases (decode : String → Except JwtDecodeErrorKind Claims)
    (provider : String → Except AuthError User) (token : String) :
    (token = "" → layered_verify decode provider token =
      Except.error AuthError.Missing)
    ∧ (∀ u, token ≠ "" → jwt_verify decode token = Except.ok u →
        layered_verify decode provider token = Except.ok u)
    ∧ (token ≠ "" → jwt_verify decode token = Except.error AuthError.Expired →
        ∀ p2 : String → Except AuthError User,
          layered_verify decode p2 token = Except.error AuthError.Expired)
    ∧ (∀ e, token ≠ "" → jwt_verify decode token = Except.error e →
        e ≠ AuthError.Expired →
        layered_verify decode provider token = provider token) := by
  refine ⟨?_, ?_, ?_, ?_⟩
  · intro h
    unfold layered_verify
    rw [if_pos h]
  · intro u hne hjwt
    unfold layered_verify
    rw [if_neg hne, hjwt]
  · intro hne hjwt p2
    unfold layered_verify
    rw [if_neg hne, hjwt]
  · intro e hne hjwt hee
    unfold layered_verify
    rw [if_neg hne, hjwt]
    cases e with
    | Expired => exact absurd rfl hee
    | Invalid => rfl
    | Missing => rfl
    | Forbidden m => rfl
    | System m => rfl
    | Unsupported m => rfl

/-- Witness for C3: a concrete decode rejecting with a non-expired kind
falls through to a concrete delegate. -/
theorem layered_verify_cases_witness :
    layered_verify (fun _ => Except.error (JwtDecodeErrorKind.otherError "bad"))
      (fun _ => Except.ok { id := "up", scopes := ["read"] }) "tok" =
      Except.ok { id := "up", scopes := ["read"] } := by
  have h := (layered_verify_cases
    (fun _ => Except.error (JwtDecodeErrorKind.otherError "bad"))
    (fun _ => Except.ok { id := "up", scopes := ["read"] }) "tok").2.2.2
    AuthError.Invalid (by decide) (by rfl) (by decide)
  simpa using h

/-- C10: when the storage port's `write_stream` reports the blob already
existed (`false`), the streaming upload handler performs no integrity
comparison (the result does not depend on `hexhash`) and no deletion
(the final state is exactly the one `write_stream` returned) and
responds 200 with the path hash. -/
theorem stream_existing_skips_check
    (St : Type) (port : StoragePort St) (hexhash : Bytes → String)
    (σ σ1 : St) (hash : String) (body : Bytes) (content_length : Option Nat)
    (h : port.write_stream σ hash body content_length = (Except.ok false, σ1)) :
    upload_asset_stream port hexhash σ hash body content_length =
      (Except.ok (200, hash), σ1) := by
  simp [upload_asset_stream, h]

/-- Witness for C10: a pre-existing blob whose stored bytes hash
differently from the path hash still yields 200. -/
theorem stream_existing_skips_check_witness :
    upload_asset_stream memStore (fun _ => "00") [("ff", [9])] "ff" [1, 2] none =
      (Except.ok (200, "ff"), [("ff", [9])]) :=
  stream_existing_skips_check MemSt memStore (fun _ => "00")
    [("ff", [9])] [("ff", [9])] "ff" [1, 2] none (by rfl)

/-- C6: the spec claims that once `error_count` exceeds 15 the attach
log sequence emits a terminal system error and then yields no further
items.  In the source the `stream::unfold` closure returns
`Some((Err(..), state))` with `error_count` unchanged, so the very next
pull takes the same branch again: every subsequent pull yields the same
system error and the stream never ends.  This theorem evaluates the
step at any over-budget state: the emitted state is the input state
itself, for every fuel bound, so the pull after the "terminal" error
yields another item instead of stopping. -/
theorem log_tail_budget_repeats (env : AwsEnv) (st : LogStreamState)
    (h : st.error_count > 15) (fuel : Nat) :
    attachStep env (fuel + 1) st =
      StepResult.yield
        (Except.error (ComputeError.System "Too many transient errors")) st := by
  have hb : loopBody env st =
      LoopOutcome.emit
        (Except.error (ComputeError.System "Too many transient errors")) st := by
    unfold loopBody
    rw [if_pos h]
  simp [attachStep, hb]

/-- Witness for C6 at a concrete environment and a state with 16
accumulated transient errors. -/
theorem log_tail_budget_repeats_witness :
    attachStep
      { describe_jobs := fun _ =>
          Except.error { kind := SdkErrKind.timeoutError, msg := "t" },
        get_log_events := fun _ _ =>
          Except.error { kind := SdkErrKind.timeoutError, msg := "t" },
        rfc3339 := fun _ => "ts" } 1
      { job_id := "j", log_stream_name := none, next_token := none,
        buffer := [], finished := false, error_count := 16 } =
      StepResult.yield
        (Except.error (ComputeError.System "Too many transient errors"))
        { job_id := "j", log_stream_name := none, next_token := none,
          buffer := [], finished := false, error_count := 16 } :=
  log_tail_budget_repeats
    { describe_jobs := fun _ =>
        Except.error { kind := SdkErrKind.timeoutError, msg := "t" },
      get_log_events := fun _ _ =>
        Except.error { kind := SdkErrKind.timeoutError, msg := "t" },
      rfc3339 := fun _ => "ts" }
    { job_id := "j", log_stream_name := none, next_token := none,
      buffer := [], finished := false, error_count := 16 }
    (by decide) 0

/-- C1: on a streaming upload whose computed digest differs from the
path hash, when the storage port reports a new write the handler fails
with the storage `System` integrity error mapping to HTTP 500; the
response is the same for every storage port with that write result — in
particular a failing `delete_file` does not change it (the delete result
is dropped) — and on the in-memory blob store a subsequent
`GET /assets/{hash}` finds no blob and maps to 404. -/
theorem stream_integrity_mismatch
    (hexhash : Bytes → String) (hash : String) (body : Bytes)
    (content_length : Option Nat) (hmis : hexhash body ≠ hash) :
    (∀ (St : Type) (port : StoragePort St) (σ σ1 : St),
        port.write_stream σ hash body content_length = (Except.ok true, σ1) →
        (upload_asset_stream port hexhash σ hash body content_length).1 =
          Except.error (ApiError.storage (StorageError.System
            ("Integrity check failed. Expected " ++ hash ++ ", got " ++
              hexhash body)))
        ∧ (ApiError.storage (StorageError.System
            ("Integrity check failed. Expected " ++ hash ++ ", got " ++
              hexhash body))).into_response.1 = 500)
    ∧ (∀ σ : MemSt, memLookup σ hash = none →
        (download_asset memStore
          (upload_asset_stream memStore hexhash σ hash body content_length).2
          hash).1 = Except.error (ApiError.storage (StorageError.NotFound hash))
        ∧ (ApiError.storage (StorageError.NotFound hash)).into_response.1 = 404) := by
  constructor
  · intro St port σ σ1 hw
    refine ⟨?_, rfl⟩
    simp [upload_asset_stream, hw, hmis]
  · intro σ hmem
    refine ⟨?_, rfl⟩
    have hw : memStore.write_stream σ hash body content_length =
        (Except.ok true, (hash, body) :: σ) := by
      simp [memStore, hmem]
    have hst : (upload_asset_stream memStore hexhash σ hash body
        content_length).2 = memErase ((hash, body) :: σ) hash := by
      unfold upload_asset_stream
      rw [hw]
      simp [hmis, memStore]
    rw [hst]
    simp [download_asset, memStore, memLookup_memErase]

/-- Witness for C1 at a concrete mismatching upload into the empty
store. -/
theorem stream_integrity_mismatch_witness :
    (upload_asset_stream memStore (fun _ => "00") [] "ff" [1, 2] none).1 =
      Except.error (ApiError.storage (StorageError.System
        "Integrity check failed. Expected ff, got 00"))
    ∧ (download_asset memStore
        (upload_asset_stream memStore (fun _ => "00") [] "ff" [1, 2] none).2
        "ff").1 = Except.error (ApiError.storage (StorageError.NotFound "ff")) := by
  have h := stream_integrity_mismatch (fun _ => "00") "ff" [1, 2] none (by decide)
  have h1 := (h.1 MemSt memStore [] [("ff", [1, 2])] (by rfl)).1
  have h2 := (h.2 [] (by rfl)).1
  exact ⟨by simpa using h1, by simpa using h2⟩

/-- The zeta-reduced defining equation of `issue_token`. -/
theorem issue_token_def
    (mint : String → List String → Nat → Except AuthError String)
    (user : User) (subject : String) (duration_seconds : Option Nat)
    (scopesOpt : Option (List String)) :
    issue_token mint user subject duration_seconds scopesOpt =
      match (if (user.scopes.any fun s => s == ADMIN) = true
             then (none : Option String)
             else (scopesOpt.getD [READ]).find?
               (fun s => [ADMIN, WRITE].contains s)) with
      | some scope =>
        Except.error (ApiError.auth (AuthError.Forbidden
          ("Insufficient permissions to mint \x27" ++ scope ++ "\x27 token.")))
      | none =>
        match mint subject (scopesOpt.getD [READ])
            (duration_seconds.getD 31536000) with
        | .ok token =>
          Except.ok { token := token,
                      expires_in := duration_seconds.getD 31536000 }
        | .error e => Except.error (ApiError.auth e) := rfl

/-- C4: `POST /auth/token` — a non-admin caller whose requested scope
list contains a privileged scope (the source's first-hit scan
`find? (·∈ [ADMIN, WRITE])`, which hits iff the list contains `admin` or
`write`) fails with a `Forbidden` error mapping to HTTP 403, and the
outcome is identical for every mint backend (no token is minted);
omitted `scopes` default to `[read]` and an omitted `duration_seconds`
defaults to `31_536_000` seconds, which is the `expires_in` of the
minted response. -/
theorem issue_token_guard_and_defaults
    (mint : String → List String → Nat → Except AuthError String)
    (user : User) (subject : String) (duration_seconds : Option Nat)
    (scopesOpt : Option (List String)) :
    (∀ s0, user.scopes.any (fun s => s == ADMIN) = false →
      (scopesOpt.getD [READ]).find? (fun s => [ADMIN, WRITE].contains s) =
        some s0 →
      issue_token mint user subject duration_seconds scopesOpt =
        Except.error (ApiError.auth (AuthError.Forbidden
          ("Insufficient permissions to mint \x27" ++ s0 ++ "\x27 token.")))
      ∧ (ApiError.auth (AuthError.Forbidden
          ("Insufficient permissions to mint \x27" ++ s0 ++
            "\x27 token."))).into_response.1 = 403
      ∧ ∀ mint2 : String → List String → Nat → Except AuthError String,
          issue_token mint2 user subject duration_seconds scopesOpt =
            issue_token mint user subject duration_seconds scopesOpt)
    ∧ ((ADMIN ∈ scopesOpt.getD [READ] ∨ WRITE ∈ scopesOpt.getD [READ]) →
        (scopesOpt.getD [READ]).find? (fun s => [ADMIN, WRITE].contains s) ≠
          none)
    ∧ (issue_token mint user subject none none =
        match mint subject [READ] 31536000 with
        | .ok t => Except.ok { token := t, expires_in := 31536000 }
        | .error e => Except.error (ApiError.auth e)) := by
  refine ⟨?_, ?_, ?_⟩
  · intro s0 hadmin hs0
    have hred : ∀ m : String → List String → Nat → Except AuthError String,
        issue_token m user subject duration_seconds scopesOpt =
          Except.error (ApiError.auth (AuthError.Forbidden
            ("Insufficient permissions to mint \x27" ++ s0 ++
              "\x27 token."))) := by
      intro m
      rw [issue_token_def, hadmin, if_neg (by simp), hs0]
    refine ⟨hred mint, rfl, fun mint2 => ?_⟩
    rw [hred mint, hred mint2]
  · intro hpriv hnone
    rw [List.find?_eq_none] at hnone
    rcases hpriv with h | h
    · exact absurd (by simp [List.contains]) (hnone ADMIN h)
    · exact absurd (by simp [List.contains]) (hnone WRITE h)
  · rw [issue_token_def]
    have hfind : (((none : Option (List String)).getD [READ]).find?
        (fun s => [ADMIN, WRITE].contains s)) = none := by decide
    cases user.scopes.any (fun s => s == ADMIN) with
    | true =>
      rw [if_pos rfl]
      rfl
    | false =>
      rw [if_neg (by simp), hfind]
      rfl

/-- Witness for C4: a caller holding only `write` cannot mint an
`admin`-scoped token, and the default path mints `[read]` for one
year. -/
theorem issue_token_guard_and_defaults_witness :
    (issue_token (fun _ _ _ => Except.ok "tok")
        { id := "u", scopes := ["write"] } "x" none (some ["admin"]) =
      Except.error (ApiError.auth (AuthError.Forbidden
        "Insufficient permissions to mint \x27admin\x27 token.")))
    ∧ (issue_token (fun _ _ _ => Except.ok "tok")
        { id := "u", scopes := ["write"] } "x" none none =
      Except.ok { token := "tok", expires_in := 31536000 }) := by
  have h := issue_token_guard_and_defaults (fun _ _ _ => Except.ok "tok")
    { id := "u", scopes := ["write"] } "x" none (some ["admin"])
  have h1 := (h.1 "admin" (by decide) (by decide)).1
  have h2 := (issue_token_guard_and_defaults (fun _ _ _ => Except.ok "tok")
    { id := "u", scopes := ["write"] } "x" none none).2.2
  exact ⟨by simpa using h1, by simpa using h2⟩

/-- C5: `POST /assets` responds with the digest of the body (the
external sha2+hex pipeline applied to the full body) with status 201
when the storage port created a new blob and 200 when it already
existed; on the in-memory blob store a second upload of the same body
returns the same digest with 200. -/
theorem upload_dedup (hexhash : Bytes → String) (body : Bytes) :
    (∀ (St : Type) (port : StoragePort St) (σ σ1 : St) (created : Bool),
        port.write_blob σ (hexhash body) body = (Except.ok created, σ1) →
        upload_asset port hexhash σ body =
          (Except.ok (if created then 201 else 200, hexhash body), σ1))
    ∧ (∀ σ : MemSt, memLookup σ (hexhash body) = none →
        (upload_asset memStore hexhash σ body).1 =
          Except.ok (201, hexhash body)
        ∧ (upload_asset memStore hexhash
            (upload_asset memStore hexhash σ body).2 body).1 =
          Except.ok (200, hexhash body)) := by
  constructor
  · intro St port σ σ1 created hw
    simp [upload_asset, hw]
  · intro σ hmem
    have h1 : upload_asset memStore hexhash σ body =
        (Except.ok (201, hexhash body), (hexhash body, body) :: σ) := by
      simp [upload_asset, memStore, hmem]
    refine ⟨by rw [h1], ?_⟩
    rw [h1]
    simp [upload_asset, memStore, memLookup]

/-- Witness for C5 at a concrete body uploaded twice into the empty
store. -/
theorem upload_dedup_witness :
    (upload_asset memStore (fun _ => "aa") [] [1, 2]).1 =
      Except.ok (201, "aa")
    ∧ (upload_asset memStore (fun _ => "aa")
        (upload_asset memStore (fun _ => "aa") [] [1, 2]).2 [1, 2]).1 =
      Except.ok (200, "aa") :=
  (upload_dedup (fun _ => "aa") [1, 2]).2 [] (by rfl)

/-- C8 counterexample: the claim says the download handler performs
exactly one download-URL probe per request.  On the instrumented port
whose state counts `get_download_url` invocations (probe always `none`,
matching the defaulted trait method of the concrete backends), a single
`GET /assets/{hash}` leaves the counter at 2: the source probes once
before and once after preparing the redirect, so two probes are issued
whenever the first yields no URL. -/
theorem download_two_probes_cex :
    (download_asset probeCountPort 0 "h").2 = 2
    ∧ (download_asset probeCountPort 0 "h").1 =
        Except.ok (DownloadResp.payload []) :=
  ⟨rfl, rfl⟩

/-- C8 amended: the download handler performs one download-URL probe
when that probe yields a redirect URL (responding 307 to it), and
otherwise a second probe, responding 307 to the second probe's URL when
present and the stored blob bytes when not. -/
theorem download_probe_behavior
    (St : Type) (port : StoragePort St) (σ σ1 : St)
    (hash : String) (data : Bytes)
    (hread : port.read_file σ hash = (Except.ok data, σ1)) :
    (∀ url σ2, port.get_download_url σ1 hash = (Except.ok (some url), σ2) →
        download_asset port σ hash = (Except.ok (DownloadResp.redirect url), σ2))
    ∧ (∀ σ2, port.get_download_url σ1 hash = (Except.ok none, σ2) →
        download_asset port σ hash =
          (match port.get_download_url σ2 hash with
           | (Except.error e, σ3) => (Except.error (ApiError.storage e), σ3)
           | (Except.ok (some url), σ3) =>
             (Except.ok (DownloadResp.redirect url), σ3)
           | (Except.ok none, σ3) =>
             (Except.ok (DownloadResp.payload data), σ3))) := by
  constructor
  · intro url σ2 hp
    simp [download_asset, hread, hp]
  · intro σ2 hp
    simp [download_asset, hread, hp]

/-- Witness for C8's amended theorem: on the in-memory store (whose
probe yields no URL) the handler serves the stored bytes. -/
theorem download_probe_behavior_witness :
    download_asset memStore [("h", [1])] "h" =
      (Except.ok (DownloadResp.payload [1]), [("h", [1])]) := by
  have h := (download_probe_behavior MemSt memStore [("h", [1])] [("h", [1])]
    "h" [1] (by rfl)).2 [("h", [1])] (by rfl)
  simpa using h

/-- The zeta-reduced defining equation of `get_manifest`. -/
theorem get_manifest_def {St V : Type}
    (parseManifest : Bytes → Except String AssetManifest)
    (parseValue : Bytes → Except String V)
    (port : StoragePort St) (σ : St) (version : String) :
    get_manifest parseManifest parseValue port σ version =
      match port.read_file σ (get_manifest_path version) with
      | (.error e, σ1) => (.error (ApiError.storage e), σ1)
      | (.ok data, σ1) =>
        match parseManifest data with
        | .error msg => (.error (ApiError.other msg), σ1)
        | .ok _ =>
          match parseValue data with
          | .error msg => (.error (ApiError.other msg), σ1)
          | .ok v => (.ok v, σ1) := rfl

/-- On the in-memory store, two manifest versions whose stored bytes
coincide produce identical `GET /manifest/{version}` responses. -/
theorem get_manifest_same_bytes {V : Type}
    (parseManifest : Bytes → Except String AssetManifest)
    (parseValue : Bytes → Except String V)
    (σf : MemSt) (v1 v2 : String) (d : Bytes)
    (h1 : memLookup σf (get_manifest_path v1) = some d)
    (h2 : memLookup σf (get_manifest_path v2) = some d) :
    get_manifest parseManifest parseValue memStore σf v1 =
      get_manifest parseManifest parseValue memStore σf v2 := by
  have e1 : memStore.read_file σf (get_manifest_path v1) = (Except.ok d, σf) := by
    have hdef : memStore.read_file σf (get_manifest_path v1) =
        (match memLookup σf (get_manifest_path v1) with
         | some data => (Except.ok data, σf)
         | none =>
           (Except.error (StorageError.NotFound (get_manifest_path v1)), σf)) :=
      rfl
    rw [hdef, h1]
  have e2 : memStore.read_file σf (get_manifest_path v2) = (Except.ok d, σf) := by
    have hdef : memStore.read_file σf (get_manifest_path v2) =
        (match memLookup σf (get_manifest_path v2) with
         | some data => (Except.ok data, σf)
         | none =>
           (Except.error (StorageError.NotFound (get_manifest_path v2)), σf)) :=
      rfl
    rw [hdef, h2]
  rw [get_manifest_def, get_manifest_def, e1, e2]

/-- C9: `POST /manifest` with `latest=true` (the serde default of the
query parameter) writes the serialized manifest to
`manifests/<version>`, writes byte-identical content to
`manifests/latest`, and responds 201; consequently
`GET /manifest/<version>` and `GET /manifest/latest` return the same
JSON value for every parser. -/
theorem manifest_publish_alias
    (ser : AssetManifest → Bytes) (V : Type)
    (parseManifest : Bytes → Except String AssetManifest)
    (parseValue : Bytes → Except String V)
    (σ : MemSt) (manifest : AssetManifest) :
    (publish_manifest ser memStore σ true manifest).1 = Except.ok 201
    ∧ default_true = true
    ∧ memLookup (publish_manifest ser memStore σ true manifest).2
        (get_manifest_path manifest.version) = some (ser manifest)
    ∧ memLookup (publish_manifest ser memStore σ true manifest).2
        (get_manifest_path "latest") = some (ser manifest)
    ∧ get_manifest parseManifest parseValue memStore
        (publish_manifest ser memStore σ true manifest).2 manifest.version =
      get_manifest parseManifest parseValue memStore
        (publish_manifest ser memStore σ true manifest).2 "latest" := by
  have hpub : publish_manifest ser memStore σ true manifest =
      (Except.ok 201, (get_manifest_path "latest", ser manifest) ::
        (get_manifest_path manifest.version, ser manifest) :: σ) := by
    simp [publish_manifest, memStore]
  have hlatest : memLookup (publish_manifest ser memStore σ true manifest).2
      (get_manifest_path "latest") = some (ser manifest) := by
    rw [hpub]
    simp [memLookup]
  have hver : memLookup (publish_manifest ser memStore σ true manifest).2
      (get_manifest_path manifest.version) = some (ser manifest) := by
    rw [hpub]
    by_cases h : get_manifest_path "latest" = get_manifest_path manifest.version
    · simp [memLookup, h]
    · simp [memLookup, h]
  refine ⟨by rw [hpub], rfl, hver, hlatest, ?_⟩
  exact get_manifest_same_bytes parseManifest parseValue _ _ _ _ hver hlatest

end Aquila
